import Mathlib

/-!
Shallow embedding of geokit's raster-mosaic compositor and geometry flattening.

Source files embedded:
* `src/geokit/_algorithms/combineSimilarRasters.py` — `combineSimilarRasters`
* `src/geokit/_core/geomutil.py` — `flatten`

Pixel values are modelled as `Int`; geographic coordinates and pixel sizes as `ℚ`
(the Python code uses floats; the spec's "within floating-point tolerance"
integrality check becomes exact integrality over `ℚ`).  Raster bands and pixel
matrices are total functions `Int → Int → Int` indexed `(row, col)`; windowed
reads and writes are explicit.  The external collaborators that are not part of
this repository's `src/` (`Extent.findWithin`, `createRaster`) are modelled from
the spec, and are marked as such on their definitions.
-/

/-- A pixel matrix, indexed `(row, col)`.  Models a numpy 2-D array; windowed
operations carry the window bounds separately. -/
abbrev Mat := Int → Int → Int

/-- Metadata snapshot of one raster, as returned by `rasterInfo` (spec §3
"RasterInfo").  `srs` and `dtype` are abstract identifiers; `noData = none`
means the raster declares no nodata value; `yAtTop` is the row-orientation
flag (row 0 at the maximum-Y edge). -/
structure RasterInfo where
  srs : Nat
  dx : ℚ
  dy : ℚ
  xMin : ℚ
  yMin : ℚ
  xMax : ℚ
  yMax : ℚ
  dtype : Nat
  noData : Option Int
  yAtTop : Bool
deriving DecidableEq

/-- One input raster: its metadata plus its full pixel matrix as read by
`fetchMatrix` (spec §3 "Tile"). -/
structure Tile where
  info : RasterInfo
  matrix : Mat

/-- The accumulating output raster: metadata plus a single writable band
(spec §3 "MasterRaster"). -/
structure MasterRaster where
  info : RasterInfo
  band : Mat

/-- Destination pixel rectangle within the master band (spec §3 "SubWindow"). -/
structure SubWindow where
  xStart : Int
  yStart : Int
  xWin : Int
  yWin : Int
deriving DecidableEq

/-- I/O effects performed against the master raster, recorded in order.  Used
to state the fail-fast properties: validation errors must produce an empty
effect trace. -/
inductive Effect where
  | createMaster (m : MasterRaster)
  | openMaster
  | readWindow (w : SubWindow)
  | writeWindow (w : SubWindow)
  | flushBand
  | computeStats

/-- Exact division of rationals: `some k` when `a / b` is exactly the integer
`k`, else `none`.  Implemented by integer cross-multiplication on the reduced
`num`/`den` representations so that it is kernel-computable. -/
def exactDiv (a b : ℚ) : Option Int :=
  if a.num * (b.den : Int) =
      ((a.num * (b.den : Int)) / (b.num * (a.den : Int))) * (b.num * (a.den : Int))
  then some ((a.num * (b.den : Int)) / (b.num * (a.den : Int))) else none

/-- Modelled from the spec: `Extent.findWithin` (the SpatialIndexResolver,
spec §4.2) is implemented in `geokit._core.util`, which is not under `src/`.
Per the spec it maps the sub-extent's bounds onto the master grid:
`xStart = (subXMin - masterXMin) / dx`,
`yStart = (masterYMax - subYMax) / dy` for top-down orientation (mirrored to
`(subYMin - masterYMin) / dy` for bottom-up),
`xWin = (subXMax - subXMin) / dx`, `yWin = (subYMax - subYMin) / dy`,
all four required to land on integers, else a `MisalignedTile` error. -/
def findWithin (mInfo sub : RasterInfo) : Except String SubWindow :=
  match exactDiv (sub.xMin - mInfo.xMin) mInfo.dx,
        (if mInfo.yAtTop then exactDiv (mInfo.yMax - sub.yMax) mInfo.dy
         else exactDiv (sub.yMin - mInfo.yMin) mInfo.dy),
        exactDiv (sub.xMax - sub.xMin) mInfo.dx,
        exactDiv (sub.yMax - sub.yMin) mInfo.dy with
  | some xs, some ys, some xw, some yw => .ok ⟨xs, ys, xw, yw⟩
  | _, _, _, _ => .error "MisalignedTile"

/-- Membership of a (row, col) position in a sub-window of the master grid. -/
def inWindow (w : SubWindow) (r c : Int) : Prop :=
  w.yStart ≤ r ∧ r < w.yStart + w.yWin ∧ w.xStart ≤ c ∧ c < w.xStart + w.xWin

instance (w : SubWindow) (r c : Int) : Decidable (inWindow w r c) := by
  unfold inWindow; infer_instance

/-- Line 88, `masterBand.ReadAsArray(xoff=w.xStart, yoff=w.yStart, ...)`:
the window contents as a window-local matrix. -/
def readWindow (b : Mat) (w : SubWindow) : Mat :=
  fun r c => b (w.yStart + r) (w.xStart + c)

/-- Line 101, `masterBand.WriteArray(m, w.xStart, w.yStart)`: replace the
window's pixels by `m`, leaving the rest of the band unchanged. -/
def writeWindow (b : Mat) (w : SubWindow) (m : Mat) : Mat :=
  fun r c => if inWindow w r c then m (r - w.yStart) (c - w.xStart) else b r c

/-- Row reversal `dMatrix[::-1,:]` (line 81) for a matrix with `n` rows. -/
def flipRows (n : Int) (m : Mat) : Mat :=
  fun r c => m (n - 1 - r) c

/-- Lines 79–81: the tile matrix, normalized to top-down row order.  The
source flips before computing the sub-window, which commutes with the index
computation; the row count of the tile matrix equals the window height. -/
def normMatrix (t : Tile) (yWin : Int) : Mat :=
  if t.info.yAtTop then t.matrix else flipRows yWin t.matrix

/-- Signature of a custom `combiningFunc` (line 92):
`(mMatrix, mInfo, dMatrix, dInfo) -> writeMatrix`. -/
abbrev CombFn := Mat → RasterInfo → Mat → RasterInfo → Mat

/-- Lines 93–98: the default merge policy when no `combiningFunc` is given.
When the tile declares a nodata value, tile pixels overwrite the master
window only where they are not nodata (`sel = dMatrix != noData;
mMatrix[sel] = dMatrix[sel]`); else the tile matrix is used verbatim. -/
def combineDefault (noData : Option Int) (mMat dMat : Mat) : Mat :=
  match noData with
  | some nd => fun r c => if dMat r c ≠ nd then dMat r c else mMat r c
  | none => dMat

/-- Lines 90–98: compute the matrix written back for one tile.  With a custom
`combiningFunc`, its result is used verbatim; else the default policy of
`combineDefault` applies to the tile's declared nodata value. -/
def combineMat (cf : Option CombFn) (m : MasterRaster) (t : Tile)
    (idx : SubWindow) : Mat :=
  match cf with
  | some f => f (readWindow m.band idx) m.info (normMatrix t idx.yWin) t.info
  | none => combineDefault t.info.noData (readWindow m.band idx) (normMatrix t idx.yWin)

/-- The master state after one successful loop pass: the combined matrix is
written back to the tile's sub-window (line 101); the metadata is untouched. -/
def applyTileOk (cf : Option CombFn) (m : MasterRaster) (t : Tile)
    (idx : SubWindow) : MasterRaster :=
  { info := m.info, band := writeWindow m.band idx (combineMat cf m t idx) }

/-- One pass of the per-tile loop body (lines 75–102): resolve the tile's
bounds to a sub-window, read the master window, combine, write back, flush. -/
def applyTile (cf : Option CombFn) (m : MasterRaster) (t : Tile) :
    Except String (MasterRaster × List Effect) :=
  match findWithin m.info t.info with
  | .error e => .error e
  | .ok idx =>
      .ok (applyTileOk cf m t idx,
           [Effect.readWindow idx, Effect.writeWindow idx, Effect.flushBand])

/-- The per-tile loop (lines 71–102), threading the master state and the
effect trace.  A failing tile aborts the loop. -/
def applyTiles (cf : Option CombFn) (m : MasterRaster) :
    List Tile → List Effect × Except String MasterRaster
  | [] => ([], .ok m)
  | t :: rest =>
    match applyTile cf m t with
    | .error e => ([], .error e)
    | .ok (m2, effs) =>
      let p := applyTiles cf m2 rest
      (effs ++ p.1, p.2)

/-- Lines 23–29: compare one tile's info against the first tile's; `some`
with the source's error message on the first mismatching field (SRS, then
resolution, then datatype), `none` when all match. -/
def schemaErr1 (i0 i : RasterInfo) : Option String :=
  if ¬ (i.srs = i0.srs) then some "SRS does not match in datasets"
  else if ¬ (i.dx = i0.dx ∧ i.dy = i0.dy) then
    some "Resolution does not match in datasets"
  else if ¬ (i.dtype = i0.dtype) then some "Datatype does not match in datasets"
  else none

/-- The loop of lines 23–29 over `infoSet[1:]`: the first tile mismatch, if
any. -/
def schemaErrors (i0 : RasterInfo) : List RasterInfo → Option String
  | [] => none
  | i :: is =>
    match schemaErr1 i0 i with
    | some e => some e
    | none => schemaErrors i0 is

/-- Agreement of one tile's schema with the reference (first) tile's, as
checked by lines 23–29. -/
def tileMatches (i i0 : RasterInfo) : Prop :=
  i.srs = i0.srs ∧ (i.dx = i0.dx ∧ i.dy = i0.dy) ∧ i.dtype = i0.dtype

instance (i i0 : RasterInfo) : Decidable (tileMatches i i0) := by
  unfold tileMatches; infer_instance

/-- Lines 61–66: compare the (possibly pre-existing) master's info against the
first tile's. -/
def masterMismatch (mi i0 : RasterInfo) : Option String :=
  if ¬ (mi.srs = i0.srs) then some "SRS's do not match master dataset"
  else if ¬ (mi.dx = i0.dx ∧ mi.dy = i0.dy) then
    some "Resolution's do not match master dataset"
  else if ¬ (mi.dtype = i0.dtype) then some "Datatype's do not match master dataset"
  else none

/-- Minimum of the nonempty list `x :: xs`, as Python's `min([...])`. -/
def listMin (x : ℚ) (xs : List ℚ) : ℚ := xs.foldl min x

/-- Maximum of the nonempty list `x :: xs`, as Python's `max([...])`. -/
def listMax (x : ℚ) (xs : List ℚ) : ℚ := xs.foldl max x

/-- Lines 40–44: the nodata value used when creating the master — the explicit
`noDataValue` override when given; otherwise, when
`set([i.noData for i in infoSet])` has exactly one element, that element
(`List.dedup` models the set); otherwise `None`. -/
def chooseNoData (override : Option Int) (infoSet : List RasterInfo) : Option Int :=
  match override with
  | some v => some v
  | none =>
    match (infoSet.map RasterInfo.noData).dedup with
    | [v] => v
    | _ => none

/-- Modelled from the spec: `createRaster` (RasterStore.create, spec §6) is
implemented in `geokit._core.raster`, which is not under `src/`.  Per the
spec it allocates a raster covering `bounds` at the given resolution,
pre-filled with `fillValue` (the backend's default empty value 0 when none),
with top-down row orientation. -/
def createRaster (xMin yMin xMax yMax : ℚ) (dtype : Nat) (dx dy : ℚ)
    (noDataValue : Option Int) (srs : Nat) (fillValue : Option Int) : MasterRaster :=
  { info := { srs := srs, dx := dx, dy := dy,
              xMin := xMin, yMin := yMin, xMax := xMax, yMax := yMax,
              dtype := dtype, noData := noDataValue, yAtTop := true }
  , band := fun _ _ => fillValue.getD 0 }

/-- Lines 32–54: the master created when none exists — bounds are the union of
the tile bounds; `dx`, `dy`, `dtype`, `srs` come from the first tile; nodata
and fill value are `chooseNoData` of the override and the tile infos. -/
def newMaster (t0 : Tile) (rest : List Tile) (noDataValue : Option Int) : MasterRaster :=
  let infoSet := t0.info :: rest.map Tile.info
  let nd := chooseNoData noDataValue infoSet
  createRaster
    (listMin t0.info.xMin ((rest.map Tile.info).map RasterInfo.xMin))
    (listMin t0.info.yMin ((rest.map Tile.info).map RasterInfo.yMin))
    (listMax t0.info.xMax ((rest.map Tile.info).map RasterInfo.xMax))
    (listMax t0.info.yMax ((rest.map Tile.info).map RasterInfo.yMax))
    t0.info.dtype t0.info.dx t0.info.dy nd t0.info.srs nd

/-- Lines 56–107 after the master is available: check the master against the
first tile (lines 61–66), run the per-tile loop, then compute statistics. -/
def combineApply (cf : Option CombFn) (m0 : MasterRaster) (t0 : Tile)
    (rest : List Tile) (eff0 : List Effect) : List Effect × Except String MasterRaster :=
  match masterMismatch m0.info t0.info with
  | some e => (eff0, .error e)
  | none =>
    match applyTiles cf m0 (t0 :: rest) with
    | (effs, .error e) => (eff0 ++ effs, .error e)
    | (effs, .ok mf) => (eff0 ++ effs ++ [Effect.computeStats], .ok mf)

/-- The function `combineSimilarRasters` (lines 5–107), over an already-resolved list of
tiles.  `master = none` models `not os.path.isfile(master)` (the master must
be created); `noDataValue` is the `noDataValue` keyword argument.  The
returned effect trace records, in order, every operation performed against
the master raster; validation failures carry an empty trace.  The `verbose`
progress printing is omitted. -/
def combineSimilarRasters (cf : Option CombFn) (master : Option MasterRaster)
    (tiles : List Tile) (noDataValue : Option Int) :
    List Effect × Except String MasterRaster :=
  match tiles with
  | [] => ([], .error "No datasets given")
  | t0 :: rest =>
    match schemaErrors t0.info (rest.map Tile.info) with
    | some e => ([], .error e)
    | none =>
      match master with
      | some m0 => combineApply cf m0 t0 rest [Effect.openMaster]
      | none =>
        let mc := newMaster t0 rest noDataValue
        combineApply cf mc t0 rest [Effect.createMaster mc, Effect.openMaster]

/-- One round of `flatten`'s inner `for` loop (geomutil.py lines 425–429):
union adjacent pairs, carrying an unpaired trailing element forward
unchanged.  The geometry type and its `Union` operation are abstract. -/
def pairUnion (u : α → α → α) : List α → List α
  | a :: b :: rest => u a b :: pairUnion u rest
  | l => l

/-- Length of one pairing round: the ceiling of half the input length. -/
theorem pairUnion_length (u : α → α → α) :
    ∀ l : List α, (pairUnion u l).length = (l.length + 1) / 2
  | [] => by simp [pairUnion]
  | [_] => by simp [pairUnion]
  | _ :: _ :: r => by
      simp only [pairUnion, List.length_cons, pairUnion_length u r]
      omega

/-- The `while len(geoms) > 1` loop of `flatten` (geomutil.py lines 423–430). -/
def flattenLoop (u : α → α → α) (geoms : List α) : List α :=
  if 1 < geoms.length then flattenLoop u (pairUnion u geoms) else geoms
termination_by geoms.length
decreasing_by
  rw [pairUnion_length]
  omega

/-- The function `flatten` (geomutil.py lines 396–431): `None` on an empty list, else the
single geometry left by the balanced pairwise union reduction.  The
geometry `Union` operation is the abstract parameter `u`. -/
def flatten (u : α → α → α) (geoms : List α) : Option α :=
  if geoms.length = 0 then none else (flattenLoop u geoms).head?

/-- The three accepted forms of the `datasets` argument (lines 9–15): a glob
pattern string, a single dataset, or an iterable of datasets. -/
inductive DatasetsArg where
  | pattern (s : String)
  | single (d : Tile)
  | many (ds : List Tile)

/-- Lines 9–15: normalize the `datasets` argument to a list of tiles.  The
filesystem `glob` call is the abstract parameter `globFn`; `load` models
opening a matched path as a raster.  A string is expanded by `globFn` and
the matches are sorted ascending (`datasets.sort()`); Lean's lexicographic
`String` order models Python's. -/
def resolveDatasets (globFn : String → List String) (load : String → Tile) :
    DatasetsArg → List Tile
  | .pattern s => ((globFn s).mergeSort (fun a b => decide (a ≤ b))).map load
  | .single d => [d]
  | .many ds => ds

/-- Entry point taking the raw `datasets` argument forms (lines 9–15). -/
def combineSimilarRastersArg (globFn : String → List String) (load : String → Tile)
    (cf : Option CombFn) (master : Option MasterRaster) (arg : DatasetsArg)
    (noDataValue : Option Int) : List Effect × Except String MasterRaster :=
  combineSimilarRasters cf master (resolveDatasets globFn load arg) noDataValue

/-! ## Helper lemmas -/

theorem cast_mul_eq_iff (a b : ℚ) (k : Int) :
    (k : ℚ) * b = a ↔ a.num * (b.den : Int) = k * (b.num * (a.den : Int)) := by
  have had : ((a.den : ℚ)) ≠ 0 := by exact_mod_cast a.den_nz
  have hbd : ((b.den : ℚ)) ≠ 0 := by exact_mod_cast b.den_nz
  rw [show ((k : ℚ) * b = a) ↔
        ((k : ℚ) * ((b.num : ℚ) / (b.den : ℚ)) = (a.num : ℚ) / (a.den : ℚ)) by
      rw [Rat.num_div_den, Rat.num_div_den]]
  rw [← mul_div_assoc, div_eq_div_iff hbd had]
  constructor
  · intro h
    have h2 : (((a.num * (b.den : Int)) : Int) : ℚ) =
        (((k * (b.num * (a.den : Int))) : Int) : ℚ) := by
      push_cast
      linear_combination -h
    exact_mod_cast h2
  · intro h
    have h2 : (((a.num * (b.den : Int)) : Int) : ℚ) =
        (((k * (b.num * (a.den : Int))) : Int) : ℚ) := by exact_mod_cast h
    push_cast at h2
    linear_combination -h2

theorem exactDiv_eq_some_iff (a b : ℚ) (k : Int) (hb : b ≠ 0) :
    exactDiv a b = some k ↔ (k : ℚ) * b = a := by
  have hbnum : b.num ≠ 0 := Rat.num_ne_zero.mpr hb
  have haden : ((a.den : Int)) ≠ 0 := by exact_mod_cast a.den_nz
  have hD : b.num * (a.den : Int) ≠ 0 := mul_ne_zero hbnum haden
  rw [cast_mul_eq_iff]
  unfold exactDiv
  by_cases hc : a.num * (b.den : Int) =
      ((a.num * (b.den : Int)) / (b.num * (a.den : Int))) * (b.num * (a.den : Int))
  · rw [if_pos hc]
    constructor
    · intro h
      injection h with h
      rw [← h]
      exact hc
    · intro h
      have hk : ((a.num * (b.den : Int)) / (b.num * (a.den : Int))) = k := by
        apply mul_right_cancel₀ hD
        rw [← hc, h]
      rw [hk]
  · rw [if_neg hc]
    constructor
    · intro h
      cases h
    · intro h
      exfalso
      apply hc
      have hdvd : (b.num * (a.den : Int)) ∣ (a.num * (b.den : Int)) :=
        ⟨k, by linarith [h]⟩
      rw [Int.ediv_mul_cancel hdvd]

theorem exactDiv_of_eq (a b : ℚ) (k : Int) (hb : b ≠ 0) (h : a = (k : ℚ) * b) :
    exactDiv a b = some k :=
  (exactDiv_eq_some_iff a b k hb).mpr h.symm

theorem writeWindow_in (b : Mat) (w : SubWindow) (m : Mat) (r c : Int)
    (h : inWindow w r c) :
    writeWindow b w m r c = m (r - w.yStart) (c - w.xStart) := by
  unfold writeWindow
  rw [if_pos h]

theorem writeWindow_out (b : Mat) (w : SubWindow) (m : Mat) (r c : Int)
    (h : ¬ inWindow w r c) :
    writeWindow b w m r c = b r c := by
  unfold writeWindow
  rw [if_neg h]

theorem applyTile_eq (cf : Option CombFn) (m : MasterRaster) (t : Tile)
    (idx : SubWindow) (hfw : findWithin m.info t.info = .ok idx) :
    applyTile cf m t =
      .ok (applyTileOk cf m t idx,
           [Effect.readWindow idx, Effect.writeWindow idx, Effect.flushBand]) := by
  unfold applyTile
  rw [hfw]

theorem applyTileOk_info (cf : Option CombFn) (m : MasterRaster) (t : Tile)
    (idx : SubWindow) : (applyTileOk cf m t idx).info = m.info := rfl

theorem applyTileOk_band_in (cf : Option CombFn) (m : MasterRaster) (t : Tile)
    (idx : SubWindow) (r c : Int) (h : inWindow idx r c) :
    (applyTileOk cf m t idx).band r c =
      combineMat cf m t idx (r - idx.yStart) (c - idx.xStart) :=
  writeWindow_in m.band idx (combineMat cf m t idx) r c h

theorem applyTileOk_band_out (cf : Option CombFn) (m : MasterRaster) (t : Tile)
    (idx : SubWindow) (r c : Int) (h : ¬ inWindow idx r c) :
    (applyTileOk cf m t idx).band r c = m.band r c :=
  writeWindow_out m.band idx (combineMat cf m t idx) r c h

theorem combineMat_dense (m : MasterRaster) (t : Tile) (idx : SubWindow)
    (h : t.info.noData = none) :
    combineMat none m t idx = normMatrix t idx.yWin := by
  unfold combineMat combineDefault
  rw [h]

theorem combineMat_sparse (m : MasterRaster) (t : Tile) (idx : SubWindow)
    (nd : Int) (h : t.info.noData = some nd) (r c : Int) :
    combineMat none m t idx r c =
      if normMatrix t idx.yWin r c ≠ nd then normMatrix t idx.yWin r c
      else readWindow m.band idx r c := by
  unfold combineMat combineDefault
  rw [h]

theorem findWithin_ok (mi sub : RasterInfo) (xs ys xw yw : Int)
    (hy : mi.yAtTop = true)
    (h1 : exactDiv (sub.xMin - mi.xMin) mi.dx = some xs)
    (h2 : exactDiv (mi.yMax - sub.yMax) mi.dy = some ys)
    (h3 : exactDiv (sub.xMax - sub.xMin) mi.dx = some xw)
    (h4 : exactDiv (sub.yMax - sub.yMin) mi.dy = some yw) :
    findWithin mi sub = .ok ⟨xs, ys, xw, yw⟩ := by
  unfold findWithin
  rw [hy]
  simp only [if_true]
  rw [h1, h2, h3, h4]

/-! ## C1: sparse-overlay merge for nodata-carrying tiles -/

/-- C1: for a tile declaring a nodata value, with no custom `combiningFunc`,
the merged window written back to the master holds the tile's pixel wherever
the tile pixel differs from the nodata value, and the master's pre-existing
pixel wherever the tile pixel equals the nodata value. -/
theorem applyTile_sparse_overlay (m : MasterRaster) (t : Tile) (ndv : Int)
    (idx : SubWindow)
    (hnd : t.info.noData = some ndv)
    (hfw : findWithin m.info t.info = .ok idx) :
    ∃ m' effs, applyTile none m t = .ok (m', effs) ∧
      ∀ r c : Int, 0 ≤ r → r < idx.yWin → 0 ≤ c → c < idx.xWin →
        m'.band (idx.yStart + r) (idx.xStart + c) =
          if normMatrix t idx.yWin r c ≠ ndv then normMatrix t idx.yWin r c
          else m.band (idx.yStart + r) (idx.xStart + c) := by
  refine ⟨_, _, applyTile_eq none m t idx hfw, ?_⟩
  intro r c hr0 hr1 hc0 hc1
  have hin : inWindow idx (idx.yStart + r) (idx.xStart + c) := by
    unfold inWindow
    omega
  rw [applyTileOk_band_in none m t idx _ _ hin]
  have e1 : idx.yStart + r - idx.yStart = r := by omega
  have e2 : idx.xStart + c - idx.xStart = c := by omega
  rw [e1, e2, combineMat_sparse m t idx ndv hnd r c]
  rfl

/-- Concrete master over bounds (0,0)–(2,2), pixel size 1, top-down, with all
band pixels 7. -/
def wMaster : MasterRaster :=
  { info := { srs := 0, dx := 1, dy := 1, xMin := 0, yMin := 0, xMax := 2, yMax := 2,
              dtype := 0, noData := none, yAtTop := true }
  , band := fun _ _ => 7 }

/-- Concrete tile with nodata 0 over the same bounds: pixel (0,0) is nodata,
the rest are 5. -/
def wTileSparse : Tile :=
  { info := { srs := 0, dx := 1, dy := 1, xMin := 0, yMin := 0, xMax := 2, yMax := 2,
              dtype := 0, noData := some 0, yAtTop := true }
  , matrix := fun r c => if r = 0 ∧ c = 0 then 0 else 5 }

theorem wSparse_findWithin :
    findWithin wMaster.info wTileSparse.info = .ok ⟨0, 0, 2, 2⟩ :=
  findWithin_ok _ _ 0 0 2 2 rfl
    (exactDiv_of_eq _ _ 0 (show (1 : ℚ) ≠ 0 by norm_num)
      (by show (0 : ℚ) - 0 = ((0 : Int) : ℚ) * 1; norm_num))
    (exactDiv_of_eq _ _ 0 (show (1 : ℚ) ≠ 0 by norm_num)
      (by show (2 : ℚ) - 2 = ((0 : Int) : ℚ) * 1; norm_num))
    (exactDiv_of_eq _ _ 2 (show (1 : ℚ) ≠ 0 by norm_num)
      (by show (2 : ℚ) - 0 = ((2 : Int) : ℚ) * 1; norm_num))
    (exactDiv_of_eq _ _ 2 (show (1 : ℚ) ≠ 0 by norm_num)
      (by show (2 : ℚ) - 0 = ((2 : Int) : ℚ) * 1; norm_num))

/-- Witness for C1 at a concrete input. -/
theorem applyTile_sparse_overlay_witness :
    ∃ m' effs, applyTile none wMaster wTileSparse = .ok (m', effs) ∧
      ∀ r c : Int, 0 ≤ r → r < 2 → 0 ≤ c → c < 2 →
        m'.band (0 + r) (0 + c) =
          if normMatrix wTileSparse 2 r c ≠ 0 then normMatrix wTileSparse 2 r c
          else wMaster.band (0 + r) (0 + c) :=
  applyTile_sparse_overlay wMaster wTileSparse 0 ⟨0, 0, 2, 2⟩ rfl wSparse_findWithin

/-! ## C6: dense tiles fully overwrite; order decides overlaps -/

theorem applyTiles_cons (cf : Option CombFn) (m : MasterRaster) (t : Tile)
    (rest : List Tile) (m' : MasterRaster) (effs : List Effect)
    (h : applyTile cf m t = .ok (m', effs)) :
    applyTiles cf m (t :: rest) =
      (effs ++ (applyTiles cf m' rest).1, (applyTiles cf m' rest).2) := by
  conv_lhs => unfold applyTiles
  rw [h]

/-- C6: a tile with no declared nodata value fully overwrites its master
window; hence for two overlapping dense tiles applied A then B, the overlap
holds B's values, and in order B then A it holds A's values. -/
theorem applyTiles_last_write_wins (m : MasterRaster) (tA tB : Tile)
    (ia ib : SubWindow)
    (hA : tA.info.noData = none) (hB : tB.info.noData = none)
    (hfa : findWithin m.info tA.info = .ok ia)
    (hfb : findWithin m.info tB.info = .ok ib) :
    (∃ mA effsA, applyTile none m tA = .ok (mA, effsA) ∧
      ∀ r c : Int, inWindow ia r c →
        mA.band r c = normMatrix tA ia.yWin (r - ia.yStart) (c - ia.xStart)) ∧
    (∃ mAB pAB mBA pBA,
      applyTiles none m [tA, tB] = (pAB, .ok mAB) ∧
      applyTiles none m [tB, tA] = (pBA, .ok mBA) ∧
      ∀ r c : Int, inWindow ia r c → inWindow ib r c →
        mAB.band r c = normMatrix tB ib.yWin (r - ib.yStart) (c - ib.xStart) ∧
        mBA.band r c = normMatrix tA ia.yWin (r - ia.yStart) (c - ia.xStart)) := by
  constructor
  · refine ⟨_, _, applyTile_eq none m tA ia hfa, ?_⟩
    intro r c h
    rw [applyTileOk_band_in none m tA ia r c h, combineMat_dense m tA ia hA]
  · refine ⟨applyTileOk none (applyTileOk none m tA ia) tB ib,
      [Effect.readWindow ia, Effect.writeWindow ia, Effect.flushBand,
       Effect.readWindow ib, Effect.writeWindow ib, Effect.flushBand],
      applyTileOk none (applyTileOk none m tB ib) tA ia,
      [Effect.readWindow ib, Effect.writeWindow ib, Effect.flushBand,
       Effect.readWindow ia, Effect.writeWindow ia, Effect.flushBand],
      ?_, ?_, ?_⟩
    · rw [applyTiles_cons none m tA [tB] _ _ (applyTile_eq none m tA ia hfa),
          applyTiles_cons none _ tB [] _ _
            (applyTile_eq none (applyTileOk none m tA ia) tB ib hfb)]
      rfl
    · rw [applyTiles_cons none m tB [tA] _ _ (applyTile_eq none m tB ib hfb),
          applyTiles_cons none _ tA [] _ _
            (applyTile_eq none (applyTileOk none m tB ib) tA ia hfa)]
      rfl
    · intro r c hia hib
      constructor
      · rw [applyTileOk_band_in none _ tB ib r c hib, combineMat_dense _ tB ib hB]
      · rw [applyTileOk_band_in none _ tA ia r c hia, combineMat_dense _ tA ia hA]

/-- Concrete dense tile covering the whole master, all pixels 1. -/
def wTileA : Tile :=
  { info := { srs := 0, dx := 1, dy := 1, xMin := 0, yMin := 0, xMax := 2, yMax := 2,
              dtype := 0, noData := none, yAtTop := true }
  , matrix := fun _ _ => 1 }

/-- Concrete dense tile covering only the top-right pixel, value 2. -/
def wTileB : Tile :=
  { info := { srs := 0, dx := 1, dy := 1, xMin := 1, yMin := 1, xMax := 2, yMax := 2,
              dtype := 0, noData := none, yAtTop := true }
  , matrix := fun _ _ => 2 }

theorem wTileA_findWithin :
    findWithin wMaster.info wTileA.info = .ok ⟨0, 0, 2, 2⟩ :=
  findWithin_ok _ _ 0 0 2 2 rfl
    (exactDiv_of_eq _ _ 0 (show (1 : ℚ) ≠ 0 by norm_num)
      (by show (0 : ℚ) - 0 = ((0 : Int) : ℚ) * 1; norm_num))
    (exactDiv_of_eq _ _ 0 (show (1 : ℚ) ≠ 0 by norm_num)
      (by show (2 : ℚ) - 2 = ((0 : Int) : ℚ) * 1; norm_num))
    (exactDiv_of_eq _ _ 2 (show (1 : ℚ) ≠ 0 by norm_num)
      (by show (2 : ℚ) - 0 = ((2 : Int) : ℚ) * 1; norm_num))
    (exactDiv_of_eq _ _ 2 (show (1 : ℚ) ≠ 0 by norm_num)
      (by show (2 : ℚ) - 0 = ((2 : Int) : ℚ) * 1; norm_num))

theorem wTileB_findWithin :
    findWithin wMaster.info wTileB.info = .ok ⟨1, 0, 1, 1⟩ :=
  findWithin_ok _ _ 1 0 1 1 rfl
    (exactDiv_of_eq _ _ 1 (show (1 : ℚ) ≠ 0 by norm_num)
      (by show (1 : ℚ) - 0 = ((1 : Int) : ℚ) * 1; norm_num))
    (exactDiv_of_eq _ _ 0 (show (1 : ℚ) ≠ 0 by norm_num)
      (by show (2 : ℚ) - 2 = ((0 : Int) : ℚ) * 1; norm_num))
    (exactDiv_of_eq _ _ 1 (show (1 : ℚ) ≠ 0 by norm_num)
      (by show (2 : ℚ) - 1 = ((1 : Int) : ℚ) * 1; norm_num))
    (exactDiv_of_eq _ _ 1 (show (1 : ℚ) ≠ 0 by norm_num)
      (by show (2 : ℚ) - 1 = ((1 : Int) : ℚ) * 1; norm_num))

/-- Witness for C6 at a concrete input. -/
theorem applyTiles_last_write_wins_witness :
    (∃ mA effsA, applyTile none wMaster wTileA = .ok (mA, effsA) ∧
      ∀ r c : Int, inWindow ⟨0, 0, 2, 2⟩ r c →
        mA.band r c = normMatrix wTileA 2 (r - 0) (c - 0)) ∧
    (∃ mAB pAB mBA pBA,
      applyTiles none wMaster [wTileA, wTileB] = (pAB, .ok mAB) ∧
      applyTiles none wMaster [wTileB, wTileA] = (pBA, .ok mBA) ∧
      ∀ r c : Int, inWindow ⟨0, 0, 2, 2⟩ r c → inWindow ⟨1, 0, 1, 1⟩ r c →
        mAB.band r c = normMatrix wTileB 1 (r - 0) (c - 1) ∧
        mBA.band r c = normMatrix wTileA 2 (r - 0) (c - 0)) :=
  applyTiles_last_write_wins wMaster wTileA wTileB ⟨0, 0, 2, 2⟩ ⟨1, 0, 1, 1⟩
    rfl rfl wTileA_findWithin wTileB_findWithin

/-! ## C7: sparse overlay is idempotent -/

/-- C7: applying the same nodata-carrying tile twice under the default
sparse-overlay policy leaves every master pixel exactly as after the first
application (so in particular all non-nodata pixel values agree). -/
theorem applyTile_sparse_idempotent (m : MasterRaster) (t : Tile) (ndv : Int)
    (idx : SubWindow) (hnd : t.info.noData = some ndv)
    (hfw : findWithin m.info t.info = .ok idx) :
    ∃ m1 e1 m2 e2, applyTile none m t = .ok (m1, e1) ∧
      applyTile none m1 t = .ok (m2, e2) ∧
      ∀ r c : Int, m2.band r c = m1.band r c := by
  refine ⟨applyTileOk none m t idx, _,
    applyTileOk none (applyTileOk none m t idx) t idx, _,
    applyTile_eq none m t idx hfw,
    applyTile_eq none (applyTileOk none m t idx) t idx hfw, ?_⟩
  intro r c
  by_cases h : inWindow idx r c
  · rw [applyTileOk_band_in none _ t idx r c h,
        combineMat_sparse _ t idx ndv hnd]
    by_cases hd : normMatrix t idx.yWin (r - idx.yStart) (c - idx.xStart) ≠ ndv
    · rw [if_pos hd,
          applyTileOk_band_in none m t idx r c h,
          combineMat_sparse m t idx ndv hnd, if_pos hd]
    · rw [if_neg hd]
      show (applyTileOk none m t idx).band
          (idx.yStart + (r - idx.yStart)) (idx.xStart + (c - idx.xStart)) =
        (applyTileOk none m t idx).band r c
      have e1 : idx.yStart + (r - idx.yStart) = r := by omega
      have e2 : idx.xStart + (c - idx.xStart) = c := by omega
      rw [e1, e2]
  · rw [applyTileOk_band_out none _ t idx r c h]

/-- Witness for C7 at a concrete input. -/
theorem applyTile_sparse_idempotent_witness :
    ∃ m1 e1 m2 e2, applyTile none wMaster wTileSparse = .ok (m1, e1) ∧
      applyTile none m1 wTileSparse = .ok (m2, e2) ∧
      ∀ r c : Int, m2.band r c = m1.band r c :=
  applyTile_sparse_idempotent wMaster wTileSparse 0 ⟨0, 0, 2, 2⟩ rfl
    wSparse_findWithin

/-! ## C3: empty input -/

/-- C3: calling `combineSimilarRasters` with zero tiles raises the
"No datasets given" error, and the effect trace is empty — no master raster is
created, opened, read, or written. -/
theorem combine_empty_input (cf : Option CombFn) (master : Option MasterRaster)
    (nd : Option Int) :
    combineSimilarRasters cf master [] nd =
      ([], Except.error "No datasets given") := rfl

/-! ## C9: flatten equals the naive left fold -/

theorem pairUnion_foldl (u : α → α → α)
    (hassoc : ∀ x y z, u (u x y) z = u x (u y z)) :
    ∀ (l : List α) (a : α), (pairUnion u l).foldl u a = l.foldl u a
  | [], _ => by simp [pairUnion]
  | [x], _ => by simp [pairUnion]
  | x :: y :: r, a => by
      simp only [pairUnion, List.foldl]
      rw [pairUnion_foldl u hassoc r (u a (u x y))]
      rw [hassoc a x y]

theorem flattenLoop_cons (u : α → α → α)
    (hassoc : ∀ x y z, u (u x y) z = u x (u y z)) :
    ∀ (a : α) (l : List α), flattenLoop u (a :: l) = [l.foldl u a]
  | a, [] => by
      rw [flattenLoop]
      simp
  | a, b :: r => by
      rw [flattenLoop]
      rw [if_pos (by simp : 1 < (a :: b :: r).length)]
      show flattenLoop u (u a b :: pairUnion u r) = _
      rw [flattenLoop_cons u hassoc (u a b) (pairUnion u r)]
      rw [pairUnion_foldl u hassoc]
      rfl
termination_by _ l => l.length
decreasing_by
  rw [pairUnion_length]
  simp
  omega

/-- C9: for every nonempty list of geometries, `flatten`'s balanced pairwise
reduction returns the same result as a naive left-fold union of the list,
assuming the underlying union operation is associative and commutative. -/
theorem flatten_eq_foldl (u : α → α → α)
    (hassoc : ∀ x y z, u (u x y) z = u x (u y z))
    (_hcomm : ∀ x y, u x y = u y x)
    (a : α) (l : List α) :
    flatten u (a :: l) = some (l.foldl u a) := by
  unfold flatten
  simp [flattenLoop_cons u hassoc]

/-- Witness for C9 at a concrete input: integer addition is associative and
commutative, and flattening `[1, 2, 3]` gives their fold `6`. -/
theorem flatten_eq_foldl_witness :
    flatten (fun x y : Int => x + y) [1, 2, 3] = some 6 := by
  have h := flatten_eq_foldl (fun x y : Int => x + y)
      (fun x y z => Int.add_assoc x y z) (fun x y => Int.add_comm x y) 1 [2, 3]
  simpa using h

/-! ## C10: string argument resolves to glob matches in sorted order -/

/-- C10: when the `datasets` argument is a string, it is expanded by the
filesystem glob and the matching paths are sorted ascending before
processing, so the tiles handed to the (order-sensitive) merge loop are in
lexicographic path order. -/
theorem resolveDatasets_pattern_sorted (globFn : String → List String)
    (load : String → Tile) (cf : Option CombFn) (master : Option MasterRaster)
    (nd : Option Int) (pat : String) :
    ∃ paths : List String,
      resolveDatasets globFn load (.pattern pat) = paths.map load ∧
      paths.Perm (globFn pat) ∧
      List.Sorted (· ≤ ·) paths ∧
      combineSimilarRastersArg globFn load cf master (.pattern pat) nd =
        combineSimilarRasters cf master (paths.map load) nd := by
  refine ⟨(globFn pat).mergeSort (fun a b => decide (a ≤ b)), rfl,
    List.mergeSort_perm _ _, ?_, rfl⟩
  have h := @List.sorted_mergeSort String
    (fun a b : String => decide (a ≤ b))
    (fun a b c h1 h2 => decide_eq_true
      (le_trans (of_decide_eq_true h1) (of_decide_eq_true h2)))
    (fun a b => by
      rcases le_total a b with h | h
      · simp only [Bool.or_eq_true, decide_eq_true_eq]
        exact Or.inl h
      · simp only [Bool.or_eq_true, decide_eq_true_eq]
        exact Or.inr h)
    (globFn pat)
  exact h.imp (fun hab => of_decide_eq_true hab)

/-! ## C2: schema mismatches fail before any master I/O -/

theorem schemaErr1_none_iff (i0 i : RasterInfo) :
    schemaErr1 i0 i = none ↔ tileMatches i i0 := by
  unfold schemaErr1 tileMatches
  split_ifs with h1 h2 h3 <;> simp <;> tauto

theorem schemaErrors_eq_none (i0 : RasterInfo) (l : List RasterInfo) :
    schemaErrors i0 l = none ↔ ∀ i ∈ l, tileMatches i i0 := by
  induction l with
  | nil => simp [schemaErrors]
  | cons i is ih =>
    rw [schemaErrors]
    cases h : schemaErr1 i0 i with
    | some e =>
      simp only []
      constructor
      · intro hc
        cases hc
      · intro hall
        exfalso
        have hn := (schemaErr1_none_iff i0 i).mpr (hall i (by simp))
        rw [hn] at h
        cases h
    | none =>
      simp only []
      rw [ih]
      constructor
      · intro hall i' hi'
        rcases List.mem_cons.mp hi' with rfl | hmem
        · exact (schemaErr1_none_iff i0 i').mp h
        · exact hall i' hmem
      · intro hall i' hi'
        exact hall i' (List.mem_cons_of_mem _ hi')

theorem schemaErrors_spec (i0 : RasterInfo) (l : List RasterInfo) (e : String)
    (h : schemaErrors i0 l = some e) :
    (e = "SRS does not match in datasets" ∧ ∃ i ∈ l, ¬ i.srs = i0.srs) ∨
    (e = "Resolution does not match in datasets" ∧
      ∃ i ∈ l, ¬ (i.dx = i0.dx ∧ i.dy = i0.dy)) ∨
    (e = "Datatype does not match in datasets" ∧ ∃ i ∈ l, ¬ i.dtype = i0.dtype) := by
  induction l with
  | nil => cases h
  | cons i is ih =>
    rw [schemaErrors] at h
    cases h1 : schemaErr1 i0 i with
    | some e' =>
      rw [h1] at h
      injection h with he
      subst he
      unfold schemaErr1 at h1
      by_cases hs : i.srs = i0.srs
      · rw [if_neg (not_not_intro hs)] at h1
        by_cases hr : i.dx = i0.dx ∧ i.dy = i0.dy
        · rw [if_neg (not_not_intro hr)] at h1
          by_cases hd : i.dtype = i0.dtype
          · rw [if_neg (not_not_intro hd)] at h1
            cases h1
          · rw [if_pos hd] at h1
            injection h1 with h1
            exact Or.inr (Or.inr ⟨h1.symm, i, by simp, hd⟩)
        · rw [if_pos hr] at h1
          injection h1 with h1
          exact Or.inr (Or.inl ⟨h1.symm, i, by simp, hr⟩)
      · rw [if_pos hs] at h1
        injection h1 with h1
        exact Or.inl ⟨h1.symm, i, by simp, hs⟩
    | none =>
      rw [h1] at h
      rcases ih h with ⟨he, i', hi', hp⟩ | ⟨he, i', hi', hp⟩ | ⟨he, i', hi', hp⟩
      · exact Or.inl ⟨he, i', List.mem_cons_of_mem _ hi', hp⟩
      · exact Or.inr (Or.inl ⟨he, i', List.mem_cons_of_mem _ hi', hp⟩)
      · exact Or.inr (Or.inr ⟨he, i', List.mem_cons_of_mem _ hi', hp⟩)

/-- C2: when any tile disagrees with the first tile on spatial reference,
resolution, or datatype, `combineSimilarRasters` returns the schema-mismatch
error naming the offending field, with an empty effect trace — so the master
raster (pre-existing or not) is never created, opened, read, or written. -/
theorem combine_schema_mismatch (cf : Option CombFn) (master : Option MasterRaster)
    (t0 : Tile) (rest : List Tile) (nd : Option Int)
    (h : ∃ t ∈ rest, ¬ tileMatches t.info t0.info) :
    ∃ e, combineSimilarRasters cf master (t0 :: rest) nd = ([], .error e) ∧
      ((e = "SRS does not match in datasets" ∧
          ∃ t ∈ rest, ¬ t.info.srs = t0.info.srs) ∨
       (e = "Resolution does not match in datasets" ∧
          ∃ t ∈ rest, ¬ (t.info.dx = t0.info.dx ∧ t.info.dy = t0.info.dy)) ∨
       (e = "Datatype does not match in datasets" ∧
          ∃ t ∈ rest, ¬ t.info.dtype = t0.info.dtype)) := by
  cases hs : schemaErrors t0.info (rest.map Tile.info) with
  | none =>
    exfalso
    obtain ⟨t, ht, hnm⟩ := h
    exact hnm ((schemaErrors_eq_none _ _).mp hs t.info (List.mem_map_of_mem _ ht))
  | some e =>
    refine ⟨e, ?_, ?_⟩
    · simp only [combineSimilarRasters]
      rw [hs]
    · rcases schemaErrors_spec _ _ _ hs with ⟨he, i, hi, hp⟩ | ⟨he, i, hi, hp⟩ | ⟨he, i, hi, hp⟩
      · obtain ⟨t, ht, rfl⟩ := List.mem_map.mp hi
        exact Or.inl ⟨he, t, ht, hp⟩
      · obtain ⟨t, ht, rfl⟩ := List.mem_map.mp hi
        exact Or.inr (Or.inl ⟨he, t, ht, hp⟩)
      · obtain ⟨t, ht, rfl⟩ := List.mem_map.mp hi
        exact Or.inr (Or.inr ⟨he, t, ht, hp⟩)

/-- Concrete tile agreeing with `wTileA` except for its datatype. -/
def wTileOtherDtype : Tile :=
  { info := { srs := 0, dx := 1, dy := 1, xMin := 0, yMin := 0, xMax := 2, yMax := 2,
              dtype := 1, noData := none, yAtTop := true }
  , matrix := fun _ _ => 3 }

/-- Witness for C2 at a concrete input: a datatype mismatch. -/
theorem combine_schema_mismatch_witness :
    ∃ e, combineSimilarRasters none none [wTileA, wTileOtherDtype] none = ([], .error e) ∧
      ((e = "SRS does not match in datasets" ∧
          ∃ t ∈ [wTileOtherDtype], ¬ t.info.srs = wTileA.info.srs) ∨
       (e = "Resolution does not match in datasets" ∧
          ∃ t ∈ [wTileOtherDtype],
            ¬ (t.info.dx = wTileA.info.dx ∧ t.info.dy = wTileA.info.dy)) ∨
       (e = "Datatype does not match in datasets" ∧
          ∃ t ∈ [wTileOtherDtype], ¬ t.info.dtype = wTileA.info.dtype)) :=
  combine_schema_mismatch none none wTileA [wTileOtherDtype] none
    ⟨wTileOtherDtype, by simp, by decide⟩

/-! ## C4 and C5: properties of the newly created master -/

theorem masterMismatch_newMaster (t0 : Tile) (rest : List Tile) (nd : Option Int) :
    masterMismatch (newMaster t0 rest nd).info t0.info = none := by
  unfold masterMismatch newMaster createRaster
  simp

theorem combine_creates (cf : Option CombFn) (t0 : Tile) (rest : List Tile)
    (nd : Option Int) (hs : schemaErrors t0.info (rest.map Tile.info) = none) :
    ∃ effs res, combineSimilarRasters cf none (t0 :: rest) nd =
      (Effect.createMaster (newMaster t0 rest nd) :: Effect.openMaster :: effs, res) := by
  have hmain : combineSimilarRasters cf none (t0 :: rest) nd =
      combineApply cf (newMaster t0 rest nd) t0 rest
        [Effect.createMaster (newMaster t0 rest nd), Effect.openMaster] := by
    simp only [combineSimilarRasters]
    rw [hs]
  rw [hmain]
  unfold combineApply
  rw [masterMismatch_newMaster]
  rcases happ : applyTiles cf (newMaster t0 rest nd) (t0 :: rest) with ⟨effs, res⟩
  cases res with
  | error e => exact ⟨effs, Except.error e, rfl⟩
  | ok mf => exact ⟨effs ++ [Effect.computeStats], Except.ok mf, rfl⟩

theorem listMin_le (xs : List ℚ) : ∀ x : ℚ, ∀ y ∈ x :: xs, listMin x xs ≤ y := by
  induction xs with
  | nil =>
    intro x y hy
    simp at hy
    subst hy
    exact le_refl _
  | cons a as ih =>
    intro x y hy
    have h1 : listMin x (a :: as) = listMin (min x a) as := rfl
    rw [h1]
    rcases List.mem_cons.mp hy with hy1 | hy2
    · rw [hy1]
      exact le_trans (ih (min x a) (min x a) (by simp)) (min_le_left _ _)
    · rcases List.mem_cons.mp hy2 with hy1 | hy3
      · rw [hy1]
        exact le_trans (ih (min x a) (min x a) (by simp)) (min_le_right _ _)
      · exact ih (min x a) y (List.mem_cons_of_mem _ hy3)

theorem listMin_mem (xs : List ℚ) : ∀ x : ℚ, listMin x xs ∈ x :: xs := by
  induction xs with
  | nil =>
    intro x
    simp [listMin]
  | cons a as ih =>
    intro x
    have h1 : listMin x (a :: as) = listMin (min x a) as := rfl
    rw [h1]
    rcases List.mem_cons.mp (ih (min x a)) with h3 | h3
    · rcases le_total x a with hxa | hxa
      · rw [h3, min_eq_left hxa]
        simp
      · rw [h3, min_eq_right hxa]
        simp
    · exact List.mem_cons_of_mem _ (List.mem_cons_of_mem _ h3)

theorem listMax_ge (xs : List ℚ) : ∀ x : ℚ, ∀ y ∈ x :: xs, y ≤ listMax x xs := by
  induction xs with
  | nil =>
    intro x y hy
    simp at hy
    subst hy
    exact le_refl _
  | cons a as ih =>
    intro x y hy
    have h1 : listMax x (a :: as) = listMax (max x a) as := rfl
    rw [h1]
    rcases List.mem_cons.mp hy with hy1 | hy2
    · rw [hy1]
      exact le_trans (le_max_left _ _) (ih (max x a) (max x a) (by simp))
    · rcases List.mem_cons.mp hy2 with hy1 | hy3
      · rw [hy1]
        exact le_trans (le_max_right _ _) (ih (max x a) (max x a) (by simp))
      · exact ih (max x a) y (List.mem_cons_of_mem _ hy3)

theorem listMax_mem (xs : List ℚ) : ∀ x : ℚ, listMax x xs ∈ x :: xs := by
  induction xs with
  | nil =>
    intro x
    simp [listMax]
  | cons a as ih =>
    intro x
    have h1 : listMax x (a :: as) = listMax (max x a) as := rfl
    rw [h1]
    rcases List.mem_cons.mp (ih (max x a)) with h3 | h3
    · rcases le_total x a with hxa | hxa
      · rw [h3, max_eq_right hxa]
        simp
      · rw [h3, max_eq_left hxa]
        simp
    · exact List.mem_cons_of_mem _ (List.mem_cons_of_mem _ h3)

/-- C4: when the master does not yet exist, the created master's bounding box
is the union of the tile bounding boxes: its xMin is the minimum of the tile
xMin values (it bounds them all below and is one of them), and symmetrically
for yMin, xMax, and yMax. -/
theorem combine_new_master_bounds (cf : Option CombFn) (t0 : Tile) (rest : List Tile)
    (nd : Option Int) (hs : schemaErrors t0.info (rest.map Tile.info) = none) :
    ∃ m effs res,
      combineSimilarRasters cf none (t0 :: rest) nd =
        (Effect.createMaster m :: Effect.openMaster :: effs, res) ∧
      ((∀ i ∈ (t0 :: rest).map Tile.info, m.info.xMin ≤ i.xMin) ∧
        m.info.xMin ∈ ((t0 :: rest).map Tile.info).map RasterInfo.xMin) ∧
      ((∀ i ∈ (t0 :: rest).map Tile.info, m.info.yMin ≤ i.yMin) ∧
        m.info.yMin ∈ ((t0 :: rest).map Tile.info).map RasterInfo.yMin) ∧
      ((∀ i ∈ (t0 :: rest).map Tile.info, i.xMax ≤ m.info.xMax) ∧
        m.info.xMax ∈ ((t0 :: rest).map Tile.info).map RasterInfo.xMax) ∧
      ((∀ i ∈ (t0 :: rest).map Tile.info, i.yMax ≤ m.info.yMax) ∧
        m.info.yMax ∈ ((t0 :: rest).map Tile.info).map RasterInfo.yMax) := by
  obtain ⟨effs, res, heq⟩ := combine_creates cf t0 rest nd hs
  refine ⟨newMaster t0 rest nd, effs, res, heq, ⟨?_, ?_⟩, ⟨?_, ?_⟩, ⟨?_, ?_⟩, ⟨?_, ?_⟩⟩
  · intro i hi
    show listMin t0.info.xMin ((rest.map Tile.info).map RasterInfo.xMin) ≤ i.xMin
    apply listMin_le
    rcases List.mem_cons.mp hi with hy1 | hmem
    · rw [hy1]
      exact List.mem_cons_self _ _
    · exact List.mem_cons_of_mem _ (List.mem_map_of_mem _ hmem)
  · exact listMin_mem ((rest.map Tile.info).map RasterInfo.xMin) t0.info.xMin
  · intro i hi
    show listMin t0.info.yMin ((rest.map Tile.info).map RasterInfo.yMin) ≤ i.yMin
    apply listMin_le
    rcases List.mem_cons.mp hi with hy1 | hmem
    · rw [hy1]
      exact List.mem_cons_self _ _
    · exact List.mem_cons_of_mem _ (List.mem_map_of_mem _ hmem)
  · exact listMin_mem ((rest.map Tile.info).map RasterInfo.yMin) t0.info.yMin
  · intro i hi
    show i.xMax ≤ listMax t0.info.xMax ((rest.map Tile.info).map RasterInfo.xMax)
    apply listMax_ge
    rcases List.mem_cons.mp hi with hy1 | hmem
    · rw [hy1]
      exact List.mem_cons_self _ _
    · exact List.mem_cons_of_mem _ (List.mem_map_of_mem _ hmem)
  · exact listMax_mem ((rest.map Tile.info).map RasterInfo.xMax) t0.info.xMax
  · intro i hi
    show i.yMax ≤ listMax t0.info.yMax ((rest.map Tile.info).map RasterInfo.yMax)
    apply listMax_ge
    rcases List.mem_cons.mp hi with hy1 | hmem
    · rw [hy1]
      exact List.mem_cons_self _ _
    · exact List.mem_cons_of_mem _ (List.mem_map_of_mem _ hmem)
  · exact listMax_mem ((rest.map Tile.info).map RasterInfo.yMax) t0.info.yMax

/-- Witness for C4 at a concrete input. -/
theorem combine_new_master_bounds_witness :
    ∃ m effs res,
      combineSimilarRasters none none [wTileA, wTileB] none =
        (Effect.createMaster m :: Effect.openMaster :: effs, res) ∧
      ((∀ i ∈ ([wTileA, wTileB]).map Tile.info, m.info.xMin ≤ i.xMin) ∧
        m.info.xMin ∈ (([wTileA, wTileB]).map Tile.info).map RasterInfo.xMin) ∧
      ((∀ i ∈ ([wTileA, wTileB]).map Tile.info, m.info.yMin ≤ i.yMin) ∧
        m.info.yMin ∈ (([wTileA, wTileB]).map Tile.info).map RasterInfo.yMin) ∧
      ((∀ i ∈ ([wTileA, wTileB]).map Tile.info, i.xMax ≤ m.info.xMax) ∧
        m.info.xMax ∈ (([wTileA, wTileB]).map Tile.info).map RasterInfo.xMax) ∧
      ((∀ i ∈ ([wTileA, wTileB]).map Tile.info, i.yMax ≤ m.info.yMax) ∧
        m.info.yMax ∈ (([wTileA, wTileB]).map Tile.info).map RasterInfo.yMax) :=
  combine_new_master_bounds none wTileA [wTileB] none (by decide)

theorem dedup_eq_singleton_of_all {α : Type} [DecidableEq α] (l : List α) (v : α)
    (hne : l ≠ []) (hall : ∀ x ∈ l, x = v) : l.dedup = [v] := by
  induction l with
  | nil => cases hne rfl
  | cons a as ih =>
    have ha : a = v := hall a (by simp)
    by_cases hmem : a ∈ as
    · rw [List.dedup_cons_of_mem hmem]
      apply ih
      · intro h
        rw [h] at hmem
        cases hmem
      · intro x hx
        exact hall x (List.mem_cons_of_mem _ hx)
    · cases as with
      | nil => simp [ha]
      | cons b bs =>
        exfalso
        apply hmem
        have hb : b = v := hall b (by simp)
        rw [ha, ← hb]
        exact List.mem_cons_self b bs

theorem dedup_ne_singleton_of_two {α : Type} [DecidableEq α] (l : List α) (x y : α)
    (hx : x ∈ l) (hy : y ∈ l) (hxy : x ≠ y) : ∀ v, l.dedup ≠ [v] := by
  intro v h
  have hx2 : x ∈ l.dedup := List.mem_dedup.mpr hx
  have hy2 : y ∈ l.dedup := List.mem_dedup.mpr hy
  rw [h] at hx2 hy2
  simp at hx2 hy2
  exact hxy (hx2.trans hy2.symm)

theorem chooseNoData_common (infoSet : List RasterInfo) (hne : infoSet ≠ [])
    (v : Option Int) (hall : ∀ i ∈ infoSet, i.noData = v) :
    chooseNoData none infoSet = v := by
  have h1 : (infoSet.map RasterInfo.noData).dedup = [v] := by
    apply dedup_eq_singleton_of_all _ v (by simpa using hne)
    intro x hx
    obtain ⟨i, hi, rfl⟩ := List.mem_map.mp hx
    exact hall i hi
  unfold chooseNoData
  rw [h1]

theorem chooseNoData_mixed (infoSet : List RasterInfo) (i1 i2 : RasterInfo)
    (h1 : i1 ∈ infoSet) (h2 : i2 ∈ infoSet) (hne : i1.noData ≠ i2.noData) :
    chooseNoData none infoSet = none := by
  have hns := dedup_ne_singleton_of_two (infoSet.map RasterInfo.noData)
    i1.noData i2.noData (List.mem_map_of_mem _ h1) (List.mem_map_of_mem _ h2) hne
  unfold chooseNoData
  rcases hd : (infoSet.map RasterInfo.noData).dedup with _ | ⟨a, rest2⟩
  · rfl
  · cases rest2 with
    | nil => exact absurd hd (hns a)
    | cons b bs => rfl

/-- C5: when the master must be created, its nodata value is the explicit
override when given; otherwise the tiles' common nodata value when the set of
tile nodata values has exactly one element; otherwise it is left unset — and
every pixel of the new band is pre-filled with this nodata value (the
backend's default 0 when unset) before any tile is applied. -/
theorem combine_new_master_nodata (cf : Option CombFn) (t0 : Tile) (rest : List Tile)
    (nd : Option Int) (hs : schemaErrors t0.info (rest.map Tile.info) = none) :
    ∃ m effs res,
      combineSimilarRasters cf none (t0 :: rest) nd =
        (Effect.createMaster m :: Effect.openMaster :: effs, res) ∧
      (∀ v : Int, nd = some v → m.info.noData = some v) ∧
      (nd = none → ∀ v : Option Int, (∀ t ∈ t0 :: rest, t.info.noData = v) →
        m.info.noData = v) ∧
      (nd = none → ∀ t1 ∈ t0 :: rest, ∀ t2 ∈ t0 :: rest,
        t1.info.noData ≠ t2.info.noData → m.info.noData = none) ∧
      (∀ x y : Int, m.band x y = m.info.noData.getD 0) := by
  obtain ⟨effs, res, heq⟩ := combine_creates cf t0 rest nd hs
  refine ⟨newMaster t0 rest nd, effs, res, heq, ?_, ?_, ?_, ?_⟩
  · intro v hv
    rw [hv]
    rfl
  · intro hnd v hall
    rw [hnd]
    show chooseNoData none (t0.info :: rest.map Tile.info) = v
    apply chooseNoData_common _ (by simp) v
    intro i hi
    rcases List.mem_cons.mp hi with hy1 | hmem
    · rw [hy1]
      exact hall t0 (by simp)
    · obtain ⟨t, ht, rfl⟩ := List.mem_map.mp hmem
      exact hall t (List.mem_cons_of_mem _ ht)
  · intro hnd t1 ht1 t2 ht2 hne12
    rw [hnd]
    show chooseNoData none (t0.info :: rest.map Tile.info) = none
    apply chooseNoData_mixed _ t1.info t2.info ?_ ?_ hne12
    · rcases List.mem_cons.mp ht1 with hy1 | hmem
      · rw [hy1]
        exact List.mem_cons_self _ _
      · exact List.mem_cons_of_mem _ (List.mem_map_of_mem _ hmem)
    · rcases List.mem_cons.mp ht2 with hy1 | hmem
      · rw [hy1]
        exact List.mem_cons_self _ _
      · exact List.mem_cons_of_mem _ (List.mem_map_of_mem _ hmem)
  · intro x y
    rfl

/-- Witness for C5 at a concrete input. -/
theorem combine_new_master_nodata_witness :
    ∃ m effs res,
      combineSimilarRasters none none [wTileSparse] (some 9) =
        (Effect.createMaster m :: Effect.openMaster :: effs, res) ∧
      (∀ v : Int, (some 9 : Option Int) = some v → m.info.noData = some v) ∧
      ((some 9 : Option Int) = none → ∀ v : Option Int,
        (∀ t ∈ [wTileSparse], t.info.noData = v) → m.info.noData = v) ∧
      ((some 9 : Option Int) = none → ∀ t1 ∈ [wTileSparse], ∀ t2 ∈ [wTileSparse],
        t1.info.noData ≠ t2.info.noData → m.info.noData = none) ∧
      (∀ x y : Int, m.band x y = m.info.noData.getD 0) :=
  combine_new_master_nodata none wTileSparse [] (some 9) (by decide)

/-! ## C8: the SubWindow resolver's contract -/

theorem findWithin_eq_ok_iff (mi sub : RasterInfo) (w : SubWindow)
    (hy : mi.yAtTop = true) :
    findWithin mi sub = .ok w ↔
      (exactDiv (sub.xMin - mi.xMin) mi.dx = some w.xStart ∧
       exactDiv (mi.yMax - sub.yMax) mi.dy = some w.yStart ∧
       exactDiv (sub.xMax - sub.xMin) mi.dx = some w.xWin ∧
       exactDiv (sub.yMax - sub.yMin) mi.dy = some w.yWin) := by
  unfold findWithin
  rw [hy]
  simp only [if_true]
  constructor
  · intro h
    rcases h1 : exactDiv (sub.xMin - mi.xMin) mi.dx with _ | k1 <;>
      rcases h2 : exactDiv (mi.yMax - sub.yMax) mi.dy with _ | k2 <;>
      rcases h3 : exactDiv (sub.xMax - sub.xMin) mi.dx with _ | k3 <;>
      rcases h4 : exactDiv (sub.yMax - sub.yMin) mi.dy with _ | k4 <;>
      rw [h1, h2, h3, h4] at h <;>
      first
        | exact Except.noConfusion h
        | (cases h; exact ⟨rfl, rfl, rfl, rfl⟩)
  · rintro ⟨h1, h2, h3, h4⟩
    rw [h1, h2, h3, h4]

theorem findWithin_error_eq (mi sub : RasterInfo) (e : String)
    (h : findWithin mi sub = .error e) : e = "MisalignedTile" := by
  unfold findWithin at h
  rcases h1 : exactDiv (sub.xMin - mi.xMin) mi.dx with _ | k1 <;>
    rcases h2 : (if mi.yAtTop then exactDiv (mi.yMax - sub.yMax) mi.dy
                 else exactDiv (sub.yMin - mi.yMin) mi.dy) with _ | k2 <;>
    rcases h3 : exactDiv (sub.xMax - sub.xMin) mi.dx with _ | k3 <;>
    rcases h4 : exactDiv (sub.yMax - sub.yMin) mi.dy with _ | k4 <;>
    rw [h1, h2, h3, h4] at h <;>
    first
      | exact Except.noConfusion h
      | (injection h with h; exact h.symm)

/-- Concrete master metadata with bounds (0,0)–(20,20), dx = dy = 1, top-down
orientation: the spec's resolver example. -/
def exMaster20 : RasterInfo :=
  { srs := 0, dx := 1, dy := 1, xMin := 0, yMin := 0, xMax := 20, yMax := 20,
    dtype := 0, noData := none, yAtTop := true }

/-- Concrete tile metadata with bounds (0,0)–(10,10) at dx = dy = 1. -/
def exTile10 : RasterInfo :=
  { srs := 0, dx := 1, dy := 1, xMin := 0, yMin := 0, xMax := 10, yMax := 10,
    dtype := 0, noData := none, yAtTop := true }

/-- C8: the SubWindow resolver maps tile bounds onto the master grid by
`xStart = (subXMin - masterXMin) / dx`, `yStart = (masterYMax - subYMax) / dy`
(top-down), `xWin = (subXMax - subXMin) / dx`, `yWin = (subYMax - subYMin) / dy`,
succeeding exactly when all four land on integers and raising the
misalignment error otherwise; in particular tile bounds (0,0,10,10) at
dx = dy = 1 against a top-down master with bounds (0,0,20,20) resolve to
`xStart = 0, yStart = 10, xWin = 10, yWin = 10`. -/
theorem findWithin_resolves (mi sub : RasterInfo) (w : SubWindow)
    (hy : mi.yAtTop = true) (hdx : mi.dx ≠ 0) (hdy : mi.dy ≠ 0) :
    findWithin exMaster20 exTile10 = .ok ⟨0, 10, 10, 10⟩ ∧
    (findWithin mi sub = .ok w ↔
      ((w.xStart : ℚ) * mi.dx = sub.xMin - mi.xMin ∧
       (w.yStart : ℚ) * mi.dy = mi.yMax - sub.yMax ∧
       (w.xWin : ℚ) * mi.dx = sub.xMax - sub.xMin ∧
       (w.yWin : ℚ) * mi.dy = sub.yMax - sub.yMin)) ∧
    ((¬ ∃ w' : SubWindow,
        (w'.xStart : ℚ) * mi.dx = sub.xMin - mi.xMin ∧
        (w'.yStart : ℚ) * mi.dy = mi.yMax - sub.yMax ∧
        (w'.xWin : ℚ) * mi.dx = sub.xMax - sub.xMin ∧
        (w'.yWin : ℚ) * mi.dy = sub.yMax - sub.yMin) →
      findWithin mi sub = .error "MisalignedTile") := by
  refine ⟨?_, ?_, ?_⟩
  · exact findWithin_ok _ _ 0 10 10 10 rfl
      (exactDiv_of_eq _ _ 0 (show (1 : ℚ) ≠ 0 by norm_num)
        (by show (0 : ℚ) - 0 = ((0 : Int) : ℚ) * 1; norm_num))
      (exactDiv_of_eq _ _ 10 (show (1 : ℚ) ≠ 0 by norm_num)
        (by show (20 : ℚ) - 10 = ((10 : Int) : ℚ) * 1; norm_num))
      (exactDiv_of_eq _ _ 10 (show (1 : ℚ) ≠ 0 by norm_num)
        (by show (10 : ℚ) - 0 = ((10 : Int) : ℚ) * 1; norm_num))
      (exactDiv_of_eq _ _ 10 (show (1 : ℚ) ≠ 0 by norm_num)
        (by show (10 : ℚ) - 0 = ((10 : Int) : ℚ) * 1; norm_num))
  · rw [findWithin_eq_ok_iff mi sub w hy]
    exact and_congr (exactDiv_eq_some_iff _ _ _ hdx)
      (and_congr (exactDiv_eq_some_iff _ _ _ hdy)
        (and_congr (exactDiv_eq_some_iff _ _ _ hdx)
          (exactDiv_eq_some_iff _ _ _ hdy)))
  · intro hne
    cases hw : findWithin mi sub with
    | error e => rw [findWithin_error_eq mi sub e hw]
    | ok w' =>
      exfalso
      apply hne
      have hcond := (findWithin_eq_ok_iff mi sub w' hy).mp hw
      exact ⟨w', (exactDiv_eq_some_iff _ _ _ hdx).mp hcond.1,
        (exactDiv_eq_some_iff _ _ _ hdy).mp hcond.2.1,
        (exactDiv_eq_some_iff _ _ _ hdx).mp hcond.2.2.1,
        (exactDiv_eq_some_iff _ _ _ hdy).mp hcond.2.2.2⟩

/-- Witness for C8 at a concrete input. -/
theorem findWithin_resolves_witness :
    findWithin exMaster20 exTile10 = .ok ⟨0, 10, 10, 10⟩ ∧
    (findWithin exMaster20 exTile10 = .ok (⟨0, 10, 10, 10⟩ : SubWindow) ↔
      (((⟨0, 10, 10, 10⟩ : SubWindow).xStart : ℚ) * exMaster20.dx =
          exTile10.xMin - exMaster20.xMin ∧
       ((⟨0, 10, 10, 10⟩ : SubWindow).yStart : ℚ) * exMaster20.dy =
          exMaster20.yMax - exTile10.yMax ∧
       ((⟨0, 10, 10, 10⟩ : SubWindow).xWin : ℚ) * exMaster20.dx =
          exTile10.xMax - exTile10.xMin ∧
       ((⟨0, 10, 10, 10⟩ : SubWindow).yWin : ℚ) * exMaster20.dy =
          exTile10.yMax - exTile10.yMin)) ∧
    ((¬ ∃ w' : SubWindow,
        (w'.xStart : ℚ) * exMaster20.dx = exTile10.xMin - exMaster20.xMin ∧
        (w'.yStart : ℚ) * exMaster20.dy = exMaster20.yMax - exTile10.yMax ∧
        (w'.xWin : ℚ) * exMaster20.dx = exTile10.xMax - exTile10.xMin ∧
        (w'.yWin : ℚ) * exMaster20.dy = exTile10.yMax - exTile10.yMin) →
      findWithin exMaster20 exTile10 = .error "MisalignedTile") :=
  findWithin_resolves exMaster20 exTile10 ⟨0, 10, 10, 10⟩ rfl
    (show (1 : ℚ) ≠ 0 by norm_num) (show (1 : ℚ) ≠ 0 by norm_num)
